import Mathlib

/-!
# Verification of the scsir core engine

Shallow embedding of the core of the `scsir` crate (SCSI passthrough
library): the bound checker and MSB-first bitfield codec
(`src/command/mod.rs`, `src/command/read.rs`), the flexible
header-plus-array record (`src/data_wrapper.rs`, `FlexibleStruct`), the
platform dispatch header population (`src/scsi.rs`), and the two-tier
result classification used by every command decoder.

Machine integers are modelled as `Nat` with explicit `% 2^w` /
saturation where the Rust code works in a fixed width; raw memory is
modelled as `List Nat` of byte values; fallible operations return
`Except ScsiError`.
-/

namespace Scsir

/-- Error taxonomy. `error.rs` is not part of the sources provided, but
the variants and the data they carry are fixed by the spec's taxonomy
(argument errors carry the maximum representable value and the given
value; transport errors carry the platform error; device errors carry
the device status plus parsed diagnostic data when present) and by how
`command/mod.rs` and the command modules construct them.  The source
formats max/given into a message string; the model carries them
structurally. -/
inductive ScsiError where
  | argumentOutOfBounds (maxPossible : Nat) (given : Nat)
  | badArgument (description : String)
  | ioctlFailed (osError : Int)
  | deviceError (status : Nat) (sense : Option (List Nat))
  deriving DecidableEq, Repr

/-- Bit length of a natural number, with explicit fuel so that the
definition is structurally recursive (the fuel `n` always suffices
since the recursion halves its argument).  For a value `x` stored in an
unsigned integer of `b` bits, Rust's
`size_of_val(&x) as u32 * 8 - x.leading_zeros()` equals exactly this
bit length, because `x.leading_zeros() = b - bitLength x`. -/
def natBitLengthFuel : Nat → Nat → Nat
  | 0, _ => 0
  | fuel + 1, n => if n = 0 then 0 else natBitLengthFuel fuel (n / 2) + 1

/-- Bit length of a natural number (0 for 0). -/
def natBitLength (n : Nat) : Nat := natBitLengthFuel n n

/-- `u128::wrapping_shl`: the shift amount is taken mod 128 and the
result truncated to 128 bits. -/
def u128_wrapping_shl (x n : Nat) : Nat := (x <<< (n % 128)) % 2 ^ 128

/-- `bitfield_bound_check!` from `src/command/mod.rs`: fails iff the
value's minimal bit length exceeds the target width; the reported
maximum is `1u128.wrapping_shl(bit_count) - 1`. -/
def bitfield_bound_check (num : Nat) (bit_count : Nat) : Except ScsiError Unit :=
  if bit_count < natBitLength num then
    Except.error (ScsiError.argumentOutOfBounds (u128_wrapping_shl 1 bit_count - 1) num)
  else
    Except.ok ()

lemma natBitLengthFuel_le_iff :
    ∀ fuel n w, n ≤ fuel → (natBitLengthFuel fuel n ≤ w ↔ n < 2 ^ w) := by
  intro fuel
  induction fuel with
  | zero =>
    intro n w hn
    interval_cases n
    simp [natBitLengthFuel, Nat.pos_pow_of_pos]
  | succ f ih =>
    intro n w hn
    by_cases h0 : n = 0
    · subst h0
      simp [natBitLengthFuel]
    · have hrec : n / 2 ≤ f := by
        have h2 : n / 2 < n := Nat.div_lt_self (Nat.pos_of_ne_zero h0) (by norm_num)
        omega
      cases w with
      | zero =>
        simp [natBitLengthFuel, h0]
      | succ v =>
        have := ih (n / 2) v hrec
        simp only [natBitLengthFuel, h0, if_false]
        rw [Nat.succ_le_succ_iff, this, pow_succ]
        constructor
        · intro h
          have := Nat.lt_mul_of_div_lt h (by norm_num)
          omega
        · intro h
          have : n / 2 < 2 ^ v := Nat.div_lt_of_lt_mul (by omega)
          exact this

lemma natBitLength_le_iff (n w : Nat) : natBitLength n ≤ w ↔ n < 2 ^ w :=
  natBitLengthFuel_le_iff n n w (Nat.le_refl n)

lemma bitfield_bound_check_ok_iff (num w : Nat) :
    bitfield_bound_check num w = Except.ok () ↔ num < 2 ^ w := by
  unfold bitfield_bound_check
  by_cases h : w < natBitLength num
  · simp only [h, if_true]
    constructor
    · intro hc
      exact absurd hc (by simp)
    · intro hlt
      have := (natBitLength_le_iff num w).mpr hlt
      omega
  · simp only [h, if_false]
    have := (natBitLength_le_iff num w).mp (by omega)
    simp [this]

lemma bitfield_bound_check_error_max (num w m g : Nat) (hnum : num < 2 ^ 128)
    (h : bitfield_bound_check num w =
        Except.error (ScsiError.argumentOutOfBounds m g)) :
    m = 2 ^ w - 1 ∧ g = num := by
  unfold bitfield_bound_check at h
  by_cases hc : w < natBitLength num
  · simp only [hc, if_true, Except.error.injEq, ScsiError.argumentOutOfBounds.injEq] at h
    obtain ⟨hm, hg⟩ := h
    have hble : natBitLength num ≤ 128 := (natBitLength_le_iff num 128).mpr hnum
    have hw : w < 128 := by omega
    have hmod : w % 128 = w := Nat.mod_eq_of_lt hw
    have hpow : (2 : Nat) ^ w < 2 ^ 128 := Nat.pow_lt_pow_right (by norm_num) hw
    subst hm hg
    refine ⟨?_, rfl⟩
    unfold u128_wrapping_shl
    rw [hmod, Nat.shiftLeft_eq, one_mul, Nat.mod_eq_of_lt hpow]
  · simp [hc] at h

/-- C4: for every pair (value, width) — with the value representable in
a Rust unsigned integer, i.e. `value < 2^128` — the bound checker
succeeds iff `value < 2^width`; every failing case reports the maximum
`2^width - 1` together with the offending value; value 256 against
width 8 fails reporting max 255, and value 255 against width 8
succeeds. -/
theorem bound_check_totality (num width : Nat) (hnum : num < 2 ^ 128) :
    (bitfield_bound_check num width = Except.ok () ↔ num < 2 ^ width) ∧
    (∀ m g, bitfield_bound_check num width =
        Except.error (ScsiError.argumentOutOfBounds m g) →
        m = 2 ^ width - 1 ∧ g = num) ∧
    bitfield_bound_check 256 8 =
      Except.error (ScsiError.argumentOutOfBounds 255 256) ∧
    bitfield_bound_check 255 8 = Except.ok () :=
  ⟨bitfield_bound_check_ok_iff num width,
   fun m g h => bitfield_bound_check_error_max num width m g hnum h,
   by rfl, by rfl⟩

/-- Witness for `bound_check_totality` at value 7, width 3. -/
theorem bound_check_totality_witness :
    7 < 2 ^ 128 ∧ (bitfield_bound_check 7 3 = Except.ok () ↔ 7 < 2 ^ 3) :=
  ⟨by norm_num, (bound_check_totality 7 3 (by norm_num)).1⟩

/-! ## MSB-first bitfield codec and the READ(10) CDB

`modular_bitfield_msb` packs the declared fields in order, MSB-first:
the first field occupies the most significant bits of byte 0, fields
wider than 8 bits span bytes in big-endian order.  We model a packed
record as the big-endian byte serialization of the concatenated field
bits. -/

/-- Concatenate `(width, value)` fields MSB-first, returning the total
bit count and the accumulated value (each value truncated to its
declared width, as the codec stores only the declared bit span). -/
def packFieldsBits (fields : List (Nat × Nat)) : Nat × Nat :=
  fields.foldl (fun acc f => (acc.1 + f.1, acc.2 * 2 ^ f.1 + f.2 % 2 ^ f.1)) (0, 0)

/-- Serialize a value to `n` bytes, big-endian. -/
def natToBytesBE : Nat → Nat → List Nat
  | 0, _ => []
  | n + 1, v => natToBytesBE n (v / 256) ++ [v % 256]

/-- Pack an ordered field list into its byte record (MSB-first within
the record, multi-byte fields big-endian), as `modular_bitfield_msb`
lays out a `#[bitfield]` struct. -/
def packFields (fields : List (Nat × Nat)) : List Nat :=
  natToBytesBE ((packFieldsBits fields).1 / 8) (packFieldsBits fields).2

/-- `CommandBuffer10` from `src/command/read.rs`: the 10-byte READ(10)
CDB. Field order and widths exactly as declared in the source. -/
structure CommandBuffer10 where
  operation_code : Nat
  read_protect : Nat
  disable_page_out : Nat
  force_unit_access : Nat
  rebuild_assist_recovery_control : Nat
  obsolete : Nat
  logical_block_address : Nat
  reserved : Nat
  group_number : Nat
  transfer_length : Nat
  control : Nat
  deriving DecidableEq, Repr

/-- Byte layout of `CommandBuffer10`, fields in declaration order with
the widths `B8 B3 B1 B1 B1 B2 B32 B3 B5 B16 B8` from the source. -/
def CommandBuffer10.pack (c : CommandBuffer10) : List Nat :=
  packFields [(8, c.operation_code), (3, c.read_protect), (1, c.disable_page_out),
    (1, c.force_unit_access), (1, c.rebuild_assist_recovery_control), (2, c.obsolete),
    (32, c.logical_block_address), (3, c.reserved), (5, c.group_number),
    (16, c.transfer_length), (8, c.control)]

/-- `OPERATION_CODE_10` from `src/command/read.rs`. -/
def OPERATION_CODE_10 : Nat := 0x28

/-- The builder state of `ReadCommand` (`src/command/read.rs`), minus
the device handle. -/
structure ReadCommand where
  control : Nat
  group_number : Nat
  read_protect : Nat
  disable_page_out : Bool
  force_unit_access : Bool
  rebuild_assist_recovery_control : Bool
  logical_block_address : Nat
  expected_initial_logical_block_reference_tag : Nat
  expected_logical_block_application_tag : Nat
  logical_block_application_tag_mask : Nat
  transfer_length : Nat
  dld_0 : Bool
  dld_1 : Bool
  dld_2 : Bool
  logical_block_size : Nat
  deriving DecidableEq, Repr

/-- `ReadCommand::new` field defaults. -/
def ReadCommand.new : ReadCommand :=
  { control := 0, group_number := 0, read_protect := 0, disable_page_out := false,
    force_unit_access := false, rebuild_assist_recovery_control := false,
    logical_block_address := 0, expected_initial_logical_block_reference_tag := 0,
    expected_logical_block_application_tag := 0, logical_block_application_tag_mask := 0,
    transfer_length := 0, dld_0 := false, dld_1 := false, dld_2 := false,
    logical_block_size := 512 }

/-- `u64::saturating_mul` on values already reduced mod 2^64. -/
def u64_saturating_mul (a b : Nat) : Nat := min (a * b) (2 ^ 64 - 1)

/-- `u32::saturating_mul` on values already reduced mod 2^32. -/
def u32_saturating_mul (a b : Nat) : Nat := min (a * b) (2 ^ 32 - 1)

/-- `ReadCommand::common_check`: the five bound checks in source order
(each `?`-propagated), then the DLD and tag argument checks. -/
def ReadCommand.common_check (c : ReadCommand) (group_number_bits : Nat)
    (logical_block_address_bits : Nat) (transfer_length_bits : Nat)
    (allow_dld : Bool) (expect_tag : Bool) : Except ScsiError Unit :=
  match bitfield_bound_check c.read_protect 3 with
  | Except.error e => Except.error e
  | Except.ok _ =>
  match bitfield_bound_check c.group_number group_number_bits with
  | Except.error e => Except.error e
  | Except.ok _ =>
  match bitfield_bound_check c.logical_block_address logical_block_address_bits with
  | Except.error e => Except.error e
  | Except.ok _ =>
  match bitfield_bound_check c.transfer_length transfer_length_bits with
  | Except.error e => Except.error e
  | Except.ok _ =>
  match bitfield_bound_check
      (u64_saturating_mul c.transfer_length c.logical_block_size) 32 with
  | Except.error e => Except.error e
  | Except.ok _ =>
  if !allow_dld && (c.dld_0 || c.dld_1 || c.dld_2) then
    Except.error (ScsiError.badArgument "DLDs are not allowed here")
  else if !expect_tag &&
      (decide (c.expected_initial_logical_block_reference_tag ≠ 0) ||
       decide (c.expected_logical_block_application_tag ≠ 0) ||
       decide (c.logical_block_application_tag_mask ≠ 0)) then
    Except.error (ScsiError.badArgument "expected tags and mask are not allowed here")
  else
    Except.ok ()

/-- The CDB built by `ReadCommand::issue_10` (`as u32` / `as u16`
truncations made explicit; `CommandBuffer10::new` zero-initializes the
fields the builder does not set). -/
def ReadCommand.issue_10_command_buffer (c : ReadCommand) : CommandBuffer10 :=
  { operation_code := OPERATION_CODE_10
    read_protect := c.read_protect
    disable_page_out := if c.disable_page_out then 1 else 0
    force_unit_access := if c.force_unit_access then 1 else 0
    rebuild_assist_recovery_control := if c.rebuild_assist_recovery_control then 1 else 0
    obsolete := 0
    logical_block_address := c.logical_block_address % 2 ^ 32
    reserved := 0
    group_number := c.group_number
    transfer_length := c.transfer_length % 2 ^ 16
    control := c.control }

/-- The allocation length computed in `issue_10`/`issue_12`/`issue_16`/
`issue_32`: `self.logical_block_size.saturating_mul(self.transfer_length)`. -/
def ReadCommand.allocation_length (c : ReadCommand) : Nat :=
  u32_saturating_mul c.logical_block_size c.transfer_length

/-- C5: packing the 10-byte READ(10) CDB with operation_code 0x28,
LBA 0x100, transfer length 8 and all other fields zero yields exactly
the big-endian bytes `28 00 00 00 01 00 00 00 08 00` (opcode byte 0,
LBA big-endian bytes 2..6, transfer length big-endian bytes 7..9); the
same bytes result from the CDB `issue_10` builds for those arguments. -/
theorem read10_cdb_layout :
    CommandBuffer10.pack
      { operation_code := 0x28, read_protect := 0, disable_page_out := 0,
        force_unit_access := 0, rebuild_assist_recovery_control := 0, obsolete := 0,
        logical_block_address := 0x00000100, reserved := 0, group_number := 0,
        transfer_length := 0x0008, control := 0 } =
      [0x28, 0x00, 0x00, 0x00, 0x01, 0x00, 0x00, 0x00, 0x08, 0x00] ∧
    (CommandBuffer10.pack
      { operation_code := 0x28, read_protect := 0, disable_page_out := 0,
        force_unit_access := 0, rebuild_assist_recovery_control := 0, obsolete := 0,
        logical_block_address := 0x00000100, reserved := 0, group_number := 0,
        transfer_length := 0x0008, control := 0 }).length = 10 ∧
    CommandBuffer10.pack
      (ReadCommand.issue_10_command_buffer
        { ReadCommand.new with logical_block_address := 0x00000100,
                               transfer_length := 0x0008 }) =
      [0x28, 0x00, 0x00, 0x00, 0x01, 0x00, 0x00, 0x00, 0x08, 0x00] :=
  ⟨by rfl, by rfl, by rfl⟩

/-- C10: whenever `common_check` succeeds (it bound-checks
`(transfer_length as u64).saturating_mul(logical_block_size as u64)`
against 32 bits), the allocation length
`logical_block_size.saturating_mul(transfer_length)` computed by the
issue functions does not saturate: it equals the exact product. -/
theorem read_allocation_length_exact (c : ReadCommand)
    (group_number_bits logical_block_address_bits transfer_length_bits : Nat)
    (allow_dld expect_tag : Bool)
    (htl : c.transfer_length < 2 ^ 32) (hbs : c.logical_block_size < 2 ^ 32)
    (hok : c.common_check group_number_bits logical_block_address_bits
        transfer_length_bits allow_dld expect_tag = Except.ok ()) :
    c.allocation_length = c.transfer_length * c.logical_block_size := by
  have h5 : bitfield_bound_check
      (u64_saturating_mul c.transfer_length c.logical_block_size) 32 =
      Except.ok () := by
    unfold ReadCommand.common_check at hok
    cases h1 : bitfield_bound_check c.read_protect 3 with
    | error e => rw [h1] at hok; exact absurd hok (by simp)
    | ok u =>
      rw [h1] at hok
      cases h2 : bitfield_bound_check c.group_number group_number_bits with
      | error e => rw [h2] at hok; exact absurd hok (by simp)
      | ok u =>
        rw [h2] at hok
        cases h3 : bitfield_bound_check c.logical_block_address
            logical_block_address_bits with
        | error e => rw [h3] at hok; exact absurd hok (by simp)
        | ok u =>
          rw [h3] at hok
          cases h4 : bitfield_bound_check c.transfer_length transfer_length_bits with
          | error e => rw [h4] at hok; exact absurd hok (by simp)
          | ok u =>
            rw [h4] at hok
            cases h5 : bitfield_bound_check
                (u64_saturating_mul c.transfer_length c.logical_block_size) 32 with
            | error e => rw [h5] at hok; exact absurd hok (by simp)
            | ok u => cases u; rfl
  have hsat : u64_saturating_mul c.transfer_length c.logical_block_size =
      c.transfer_length * c.logical_block_size := by
    unfold u64_saturating_mul
    have : c.transfer_length * c.logical_block_size ≤ (2 ^ 32 - 1) * (2 ^ 32 - 1) :=
      Nat.mul_le_mul (by omega) (by omega)
    have hlt : c.transfer_length * c.logical_block_size ≤ 2 ^ 64 - 1 := by
      calc c.transfer_length * c.logical_block_size
          ≤ (2 ^ 32 - 1) * (2 ^ 32 - 1) := this
        _ ≤ 2 ^ 64 - 1 := by norm_num
    omega
  have hprod : c.transfer_length * c.logical_block_size < 2 ^ 32 := by
    have := (bitfield_bound_check_ok_iff _ 32).mp h5
    rw [hsat] at this
    exact this
  unfold ReadCommand.allocation_length u32_saturating_mul
  rw [Nat.mul_comm c.logical_block_size c.transfer_length]
  omega

/-- Witness for `read_allocation_length_exact`: the default read
command with transfer length 8 (block size 512) passes `common_check`
for the READ(10) widths and the allocation length is exactly 4096. -/
theorem read_allocation_length_exact_witness :
    ({ ReadCommand.new with transfer_length := 8 } : ReadCommand).allocation_length =
      8 * 512 :=
  read_allocation_length_exact { ReadCommand.new with transfer_length := 8 }
    5 32 16 false false (by decide) (by decide) (by rfl)

/-! ## The variable-length record primitive (`src/data_wrapper.rs`)

`FlexibleStruct<Body, Element>` owns one allocation of
`size_of::<Body>() + capacity * size_of::<Element>()` bytes.  We model
the type parameters by their sizes (`bodySize`, `elemSize`), the
allocation by a byte list, and a stored `Body`/`Element` value by its
byte representation (values are moved with `ptr::write_unaligned` /
`ptr::read_unaligned`, i.e. raw native-representation byte copies).
`realloc` leaves the newly acquired bytes uninitialized; the model
fills them with 0 — they are unobservable, since every accessor stays
within `total_size()`. -/

/-- Overwrite `bytes.length` bytes of `buf` starting at `off`
(`ptr::write_unaligned` at a computed offset). -/
def writeBytes (buf : List Nat) (off : Nat) (bytes : List Nat) : List Nat :=
  buf.take off ++ bytes ++ buf.drop (off + bytes.length)

/-- Read `len` bytes of `buf` starting at `off`
(`ptr::read_unaligned` at a computed offset). -/
def readBytes (buf : List Nat) (off len : Nat) : List Nat :=
  (buf.drop off).take len

/-- `realloc` to `newSize` bytes: the common prefix is preserved, any
extra bytes are fresh (modelled as 0). -/
def resizeTo (buf : List Nat) (newSize : Nat) : List Nat :=
  buf.take newSize ++ List.replicate (newSize - buf.length) 0

/-- Allocation size: `size_of::<Body>() + size_of::<Element>() * capacity`. -/
def allocSize (bodySize elemSize capacity : Nat) : Nat :=
  bodySize + elemSize * capacity

/-- `FlexibleStruct<Body, Element>`: length, capacity, and the backing
allocation's bytes. -/
structure FlexibleStruct (bodySize elemSize : Nat) where
  length : Nat
  capacity : Nat
  buf : List Nat
  deriving DecidableEq, Repr

/-- `FlexibleStruct::with_body_capacity`: allocate zeroed, then write
the body at offset 0. -/
def FlexibleStruct.with_body_capacity (bodySize elemSize : Nat) (body : List Nat)
    (capacity : Nat) : FlexibleStruct bodySize elemSize :=
  { length := 0, capacity := capacity,
    buf := writeBytes (List.replicate (allocSize bodySize elemSize capacity) 0) 0 body }

/-- `FlexibleStruct::set_body`: overwrite the body at offset 0. -/
def FlexibleStruct.set_body {bodySize elemSize : Nat}
    (s : FlexibleStruct bodySize elemSize) (body : List Nat) :
    FlexibleStruct bodySize elemSize :=
  { s with buf := writeBytes s.buf 0 body }

/-- `FlexibleStruct::try_grow_to`: no-op unless the new capacity is
larger; otherwise realloc and update the capacity. -/
def FlexibleStruct.try_grow_to {bodySize elemSize : Nat}
    (s : FlexibleStruct bodySize elemSize) (new_capacity : Nat) :
    FlexibleStruct bodySize elemSize :=
  if new_capacity ≤ s.capacity then s
  else { s with capacity := new_capacity,
                buf := resizeTo s.buf (allocSize bodySize elemSize new_capacity) }

/-- `FlexibleStruct::push`: grow to `capacity * 2 + 1` when
`length + 1 > capacity`, write the element at index `length`,
increment `length`. -/
def FlexibleStruct.push {bodySize elemSize : Nat}
    (s : FlexibleStruct bodySize elemSize) (value : List Nat) :
    FlexibleStruct bodySize elemSize :=
  let new_capacity := if s.length + 1 > s.capacity then s.capacity * 2 + 1
                      else s.capacity
  let s1 := s.try_grow_to new_capacity
  { s1 with buf := writeBytes s1.buf (bodySize + elemSize * s1.length) value,
            length := s1.length + 1 }

/-- `FlexibleStruct::pop`: `None` when empty, otherwise decrement the
length and read the element bytes at the new length. -/
def FlexibleStruct.pop {bodySize elemSize : Nat}
    (s : FlexibleStruct bodySize elemSize) :
    FlexibleStruct bodySize elemSize × Option (List Nat) :=
  if s.length = 0 then (s, none)
  else
    ({ s with length := s.length - 1 },
     some (readBytes s.buf (bodySize + elemSize * (s.length - 1)) elemSize))

/-- The `while self.pop().is_some() {}` loop of `FlexibleStruct::clear`
(the `needs_drop` branch), with explicit fuel — each successful `pop`
decrements `length`, so fuel `length` makes the loop structural.  Also
returns the indices of the elements torn down, in teardown order. -/
def FlexibleStruct.clearLoopFuel {bodySize elemSize : Nat} :
    Nat → FlexibleStruct bodySize elemSize →
    FlexibleStruct bodySize elemSize × List Nat
  | 0, s => (s, [])
  | fuel + 1, s =>
    match s.pop with
    | (s', none) => (s', [])
    | (s', some _) =>
      let r := FlexibleStruct.clearLoopFuel fuel s'
      (r.1, (s.length - 1) :: r.2)

/-- The pop-until-empty loop run to completion (fuel `length` always
suffices). -/
def FlexibleStruct.clearLoop {bodySize elemSize : Nat}
    (s : FlexibleStruct bodySize elemSize) :
    FlexibleStruct bodySize elemSize × List Nat :=
  FlexibleStruct.clearLoopFuel s.length s

/-- `FlexibleStruct::clear`: pop-until-empty when the element type
needs drop, plain `length = 0` otherwise. -/
def FlexibleStruct.clear {bodySize elemSize : Nat}
    (s : FlexibleStruct bodySize elemSize) (needs_drop : Bool) :
    FlexibleStruct bodySize elemSize :=
  if needs_drop then s.clearLoop.1 else { s with length := 0 }

/-- Teardown order of `clear` on a resource-owning element type: the
indices of the elements in the order their teardown runs. -/
def FlexibleStruct.clearTrace {bodySize elemSize : Nat}
    (s : FlexibleStruct bodySize elemSize) : List Nat :=
  s.clearLoop.2

/-- Observable teardown events of `Drop for FlexibleStruct`. -/
inductive DropEvent where
  | element (index : Nat)
  | body
  | free
  deriving DecidableEq, Repr

/-- `Drop for FlexibleStruct` with a resource-owning element type:
`self.clear()` (the pop loop), then the body is read out and dropped,
then the allocation is deallocated. -/
def FlexibleStruct.dropTrace {bodySize elemSize : Nat}
    (s : FlexibleStruct bodySize elemSize) : List DropEvent :=
  (s.clearLoop.2.map DropEvent.element) ++ [DropEvent.body, DropEvent.free]

/-- `FlexibleStruct::total_size`. -/
def FlexibleStruct.total_size {bodySize elemSize : Nat}
    (s : FlexibleStruct bodySize elemSize) : Nat :=
  bodySize + elemSize * s.length

/-- `FlexibleStruct::as_bytes`: the valid region of the allocation. -/
def FlexibleStruct.as_bytes {bodySize elemSize : Nat}
    (s : FlexibleStruct bodySize elemSize) : List Nat :=
  s.buf.take s.total_size

lemma writeBytes_take_of_le (buf : List Nat) (off : Nat) (bytes : List Nat)
    (h : off ≤ buf.length) :
    (writeBytes buf off bytes).take off = buf.take off := by
  have hA : (buf.take off).length = off := by
    simp only [List.length_take]
    omega
  unfold writeBytes
  rw [List.append_assoc, List.take_append_eq_append_take, hA, Nat.sub_self,
    List.take_zero, List.append_nil, List.take_take, Nat.min_self]

lemma writeBytes_read (buf : List Nat) (off : Nat) (bytes : List Nat)
    (h : off ≤ buf.length) :
    readBytes (writeBytes buf off bytes) off bytes.length = bytes := by
  have hA : (buf.take off).length = off := by
    simp only [List.length_take]
    omega
  unfold writeBytes readBytes
  rw [List.append_assoc, List.drop_append_eq_append_drop, hA, Nat.sub_self,
    List.drop_zero, List.drop_of_length_le (by omega), List.nil_append,
    List.take_append_eq_append_take, Nat.sub_self, List.take_zero,
    List.append_nil, List.take_of_length_le (Nat.le_refl _)]

lemma writeBytes_length_of_le (buf : List Nat) (off : Nat) (bytes : List Nat)
    (h : off + bytes.length ≤ buf.length) :
    (writeBytes buf off bytes).length = buf.length := by
  simp only [writeBytes, List.length_append, List.length_take, List.length_drop]
  omega

lemma resizeTo_length (buf : List Nat) (n : Nat) : (resizeTo buf n).length = n := by
  simp only [resizeTo, List.length_append, List.length_take, List.length_replicate]
  omega

lemma resizeTo_eq_append (buf : List Nat) (n : Nat) (h : buf.length ≤ n) :
    resizeTo buf n = buf ++ List.replicate (n - buf.length) 0 := by
  unfold resizeTo
  rw [List.take_of_length_le h]

lemma resizeTo_take (buf : List Nat) (n k : Nat) (hk : k ≤ buf.length)
    (hn : buf.length ≤ n) :
    (resizeTo buf n).take k = buf.take k := by
  rw [resizeTo_eq_append buf n hn, List.take_append_eq_append_take,
    Nat.sub_eq_zero_of_le hk, List.take_zero, List.append_nil]

lemma writeBytes_read' (buf : List Nat) (off : Nat) (bytes : List Nat) (len : Nat)
    (hlen : bytes.length = len) (h : off ≤ buf.length) :
    readBytes (writeBytes buf off bytes) off len = bytes := by
  subst hlen
  exact writeBytes_read buf off bytes h

lemma push_spec (bs es : Nat) (s : FlexibleStruct bs es) (e : List Nat)
    (hlen : s.length ≤ s.capacity)
    (hbuf : s.buf.length = allocSize bs es s.capacity)
    (he : e.length = es) :
    (s.push e).length = s.length + 1 ∧
    (s.push e).capacity =
      (if s.length = s.capacity then s.capacity * 2 + 1 else s.capacity) ∧
    (s.push e).buf.length = allocSize bs es (s.push e).capacity ∧
    (s.push e).buf.take (bs + es * s.length) = s.buf.take (bs + es * s.length) ∧
    readBytes (s.push e).buf (bs + es * s.length) es = e := by
  by_cases hc : s.length = s.capacity
  · have h1 : s.length + 1 > s.capacity := by omega
    have h2 : ¬ (s.capacity * 2 + 1 ≤ s.capacity) := by omega
    have hpush : s.push e =
        { length := s.length + 1, capacity := s.capacity * 2 + 1,
          buf := writeBytes (resizeTo s.buf (allocSize bs es (s.capacity * 2 + 1)))
                   (bs + es * s.length) e } := by
      simp only [FlexibleStruct.push, FlexibleStruct.try_grow_to]
      rw [if_pos h1, if_neg h2]
    have hN : (resizeTo s.buf (allocSize bs es (s.capacity * 2 + 1))).length =
        allocSize bs es (s.capacity * 2 + 1) := resizeTo_length _ _
    have hoff : bs + es * s.length ≤ s.buf.length := by
      rw [hbuf, hc]
      unfold allocSize
      omega
    have hgrow : s.buf.length ≤ allocSize bs es (s.capacity * 2 + 1) := by
      rw [hbuf]
      unfold allocSize
      nlinarith
    have hoffN : bs + es * s.length + e.length ≤
        (resizeTo s.buf (allocSize bs es (s.capacity * 2 + 1))).length := by
      rw [hN, he, hc]
      unfold allocSize
      nlinarith
    rw [hpush, if_pos hc]
    refine ⟨rfl, rfl, ?_, ?_, ?_⟩
    · rw [writeBytes_length_of_le _ _ _ hoffN, hN]
    · rw [writeBytes_take_of_le _ _ _ (by omega),
        resizeTo_take _ _ _ hoff hgrow]
    · exact writeBytes_read' _ _ _ _ he (by omega)
  · have h1 : ¬ (s.length + 1 > s.capacity) := by omega
    have hpush : s.push e =
        { length := s.length + 1, capacity := s.capacity,
          buf := writeBytes s.buf (bs + es * s.length) e } := by
      simp only [FlexibleStruct.push, FlexibleStruct.try_grow_to]
      rw [if_neg h1, if_pos (Nat.le_refl s.capacity)]
    have hoff : bs + es * s.length + e.length ≤ s.buf.length := by
      rw [hbuf, he]
      unfold allocSize
      have : s.length + 1 ≤ s.capacity := by omega
      nlinarith
    rw [hpush, if_neg hc]
    refine ⟨rfl, rfl, ?_, ?_, ?_⟩
    · rw [writeBytes_length_of_le _ _ _ hoff, hbuf]
    · exact writeBytes_take_of_le _ _ _ (by omega)
    · exact writeBytes_read' _ _ _ _ he (by omega)

lemma clearLoopFuel_spec (bs es : Nat) :
    ∀ (fuel : Nat) (s : FlexibleStruct bs es), s.length ≤ fuel →
      FlexibleStruct.clearLoopFuel fuel s =
        ({ s with length := 0 }, (List.range s.length).reverse) := by
  intro fuel
  induction fuel with
  | zero =>
    intro s hs
    obtain ⟨l, c, b⟩ := s
    have h0 : l = 0 := Nat.le_zero.mp hs
    subst h0
    rfl
  | succ f ih =>
    intro s hs
    obtain ⟨l, c, b⟩ := s
    cases l with
    | zero => rfl
    | succ n =>
      have hpop : @FlexibleStruct.pop bs es ⟨n + 1, c, b⟩ =
          (⟨n, c, b⟩, some (readBytes b (bs + es * n) es)) := by
        unfold FlexibleStruct.pop
        rw [if_neg (Nat.succ_ne_zero n)]
        rfl
      have hn : n ≤ f := Nat.le_of_succ_le_succ hs
      simp only [FlexibleStruct.clearLoopFuel, hpop, ih ⟨n, c, b⟩ hn]
      simp [List.range_succ]

lemma clearLoop_spec (bs es : Nat) (s : FlexibleStruct bs es) :
    s.clearLoop = ({ s with length := 0 }, (List.range s.length).reverse) :=
  clearLoopFuel_spec bs es s.length s (Nat.le_refl _)

/-- A `FlexibleStruct` over two 8-byte resource-owning values
(`Dropper` in the source's drop test is pointer-sized), built by two
pushes: element 0 then element 1. -/
def dropperStruct : FlexibleStruct 8 8 :=
  ((FlexibleStruct.with_body_capacity 8 8 (List.replicate 8 0) 0).push
      (List.replicate 8 1)).push (List.replicate 8 2)

/-- C3 (counterexample): `clear` on a two-element struct tears element
1 down first, then element 0 — the trace is `[1, 0]`, not the index
order `[0, 1]` the claim states. -/
theorem clear_teardown_order_counterexample :
    dropperStruct.clearTrace = [1, 0] ∧ dropperStruct.clearTrace ≠ [0, 1] :=
  ⟨by rfl, by decide⟩

/-- C3 (amended): `clear()` invokes each element's teardown exactly
once, in reverse index order (element N-1 first, element 0 last);
dropping without `clear()` tears down all live elements (same reverse
order) followed by the body, before the allocation is freed. -/
theorem clear_teardown_order (bs es : Nat) (s : FlexibleStruct bs es) :
    s.clearTrace = (List.range s.length).reverse ∧
    (∀ i, i < s.length → s.clearTrace.count i = 1) ∧
    (s.clear true).length = 0 ∧
    s.dropTrace =
      ((List.range s.length).reverse.map DropEvent.element) ++
        [DropEvent.body, DropEvent.free] := by
  have hc := clearLoop_spec bs es s
  refine ⟨?_, ?_, ?_, ?_⟩
  · unfold FlexibleStruct.clearTrace
    rw [hc]
  · intro i hi
    unfold FlexibleStruct.clearTrace
    rw [hc]
    simp only [List.count_reverse]
    exact List.count_eq_one_of_mem (List.nodup_range _) (List.mem_range.mpr hi)
  · unfold FlexibleStruct.clear FlexibleStruct.clearLoop at *
    rw [if_pos rfl, hc]
  · unfold FlexibleStruct.dropTrace
    rw [hc]

/-- Witness for `clear_teardown_order`: element 0 of the two-element
struct is torn down exactly once. -/
theorem clear_teardown_order_witness :
    0 < dropperStruct.length ∧ dropperStruct.clearTrace.count 0 = 1 :=
  ⟨by decide, (clear_teardown_order 8 8 dropperStruct).2.1 0 (by decide)⟩

/-- C6: `push` grows the capacity to `capacity * 2 + 1` exactly when
`length == capacity` (capacity unchanged otherwise), reallocation
preserves the header and all previously written element bytes, the new
element's bytes land at index `length`, and `length` increments. -/
theorem push_growth (bs es : Nat) (s : FlexibleStruct bs es) (e : List Nat)
    (hlen : s.length ≤ s.capacity)
    (hbuf : s.buf.length = allocSize bs es s.capacity)
    (he : e.length = es) :
    ((s.push e).capacity =
        if s.length = s.capacity then s.capacity * 2 + 1 else s.capacity) ∧
    (s.push e).buf.take (bs + es * s.length) = s.buf.take (bs + es * s.length) ∧
    readBytes (s.push e).buf (bs + es * s.length) es = e ∧
    (s.push e).length = s.length + 1 :=
  have h := push_spec bs es s e hlen hbuf he
  ⟨h.2.1, h.2.2.2.1, h.2.2.2.2, h.1⟩

/-- Witness for `push_growth`: pushing one 4-byte element onto an
empty, zero-capacity struct with a 2-byte header increments the length. -/
theorem push_growth_witness :
    ((FlexibleStruct.with_body_capacity 2 4 [0, 0] 0).push [1, 2, 3, 4]).length =
      (FlexibleStruct.with_body_capacity 2 4 [0, 0] 0).length + 1 :=
  (push_growth 2 4 (FlexibleStruct.with_body_capacity 2 4 [0, 0] 0) [1, 2, 3, 4]
    (by decide) (by decide) (by decide)).2.2.2

/-- C7: every operation — construction, `push`, `pop`, `clear`,
`set_body`, growth — preserves `length ≤ capacity`, and construction
starts at `length = 0`. -/
theorem flexible_struct_invariant (bs es : Nat) :
    (∀ body capacity,
      (FlexibleStruct.with_body_capacity bs es body capacity).length = 0 ∧
      (FlexibleStruct.with_body_capacity bs es body capacity).length ≤
        (FlexibleStruct.with_body_capacity bs es body capacity).capacity) ∧
    (∀ (s : FlexibleStruct bs es) (e : List Nat), s.length ≤ s.capacity →
      (s.push e).length ≤ (s.push e).capacity) ∧
    (∀ s : FlexibleStruct bs es, s.length ≤ s.capacity →
      s.pop.1.length ≤ s.pop.1.capacity) ∧
    (∀ (s : FlexibleStruct bs es) (needs_drop : Bool), s.length ≤ s.capacity →
      (s.clear needs_drop).length ≤ (s.clear needs_drop).capacity) ∧
    (∀ (s : FlexibleStruct bs es) (body : List Nat), s.length ≤ s.capacity →
      (s.set_body body).length ≤ (s.set_body body).capacity) ∧
    (∀ (s : FlexibleStruct bs es) (n : Nat), s.length ≤ s.capacity →
      (s.try_grow_to n).length ≤ (s.try_grow_to n).capacity) := by
  refine ⟨fun body capacity => ⟨rfl, Nat.zero_le _⟩, ?_, ?_, ?_, ?_, ?_⟩
  · intro s e h
    simp only [FlexibleStruct.push, FlexibleStruct.try_grow_to]
    by_cases h1 : s.length + 1 > s.capacity
    · rw [if_pos h1, if_neg (by omega : ¬ (s.capacity * 2 + 1 ≤ s.capacity))]
      show s.length + 1 ≤ s.capacity * 2 + 1
      omega
    · rw [if_neg h1, if_pos (Nat.le_refl s.capacity)]
      show s.length + 1 ≤ s.capacity
      omega
  · intro s h
    unfold FlexibleStruct.pop
    by_cases h0 : s.length = 0
    · rw [if_pos h0]
      exact h
    · rw [if_neg h0]
      show s.length - 1 ≤ s.capacity
      omega
  · intro s needs_drop h
    unfold FlexibleStruct.clear
    cases needs_drop with
    | false =>
      rw [if_neg (by simp)]
      exact Nat.zero_le _
    | true =>
      rw [if_pos rfl, clearLoop_spec]
      exact Nat.zero_le _
  · intro s body h
    exact h
  · intro s n h
    unfold FlexibleStruct.try_grow_to
    by_cases hg : n ≤ s.capacity
    · rw [if_pos hg]
      exact h
    · rw [if_neg hg]
      show s.length ≤ n
      omega

/-- Witness for `flexible_struct_invariant`: the push clause at a
concrete one-capacity struct. -/
theorem flexible_struct_invariant_witness :
    ((FlexibleStruct.with_body_capacity 2 4 [0, 0] 1).push [9, 9, 9, 9]).length ≤
      ((FlexibleStruct.with_body_capacity 2 4 [0, 0] 1).push [9, 9, 9, 9]).capacity :=
  (flexible_struct_invariant 2 4).2.1 _ _ (by decide)

/-- C8: `push(e)` then `pop()` returns `Some(e)` and restores the
length; `pop()` on an empty struct returns `None` and leaves the
struct unchanged. -/
theorem push_pop_inverse (bs es : Nat) (s : FlexibleStruct bs es) (e : List Nat)
    (hlen : s.length ≤ s.capacity)
    (hbuf : s.buf.length = allocSize bs es s.capacity)
    (he : e.length = es) :
    (s.push e).pop.2 = some e ∧
    (s.push e).pop.1.length = s.length ∧
    (∀ t : FlexibleStruct bs es, t.length = 0 → t.pop = (t, none)) := by
  obtain ⟨hplen, hpcap, hpbuflen, hptake, hpread⟩ := push_spec bs es s e hlen hbuf he
  have hnz : ¬ ((s.push e).length = 0) := by omega
  have hpop : (s.push e).pop =
      ({ s.push e with length := s.length }, some e) := by
    unfold FlexibleStruct.pop
    rw [if_neg hnz, hplen]
    simp only [Nat.add_sub_cancel]
    rw [hpread]
  exact ⟨by rw [hpop], by rw [hpop], fun t ht => by
    unfold FlexibleStruct.pop
    rw [if_pos ht]⟩

/-- Witness for `push_pop_inverse`: popping right after a push on a
concrete struct returns the pushed bytes. -/
theorem push_pop_inverse_witness :
    ((FlexibleStruct.with_body_capacity 2 4 [0, 0] 0).push [1, 2, 3, 4]).pop.2 =
      some [1, 2, 3, 4] :=
  (push_pop_inverse 2 4 (FlexibleStruct.with_body_capacity 2 4 [0, 0] 0)
    [1, 2, 3, 4] (by decide) (by decide) (by decide)).1

/-- Native (little-endian) byte representation of a `u32`, as
`ptr::write_unaligned` stores it on the library's supported targets
(x86-64 / aarch64 Linux and Windows are all little-endian). -/
def u32NativeBytesLE (n : Nat) : List Nat :=
  [n % 256, n / 256 % 256, n / 2 ^ 16 % 256, n / 2 ^ 24 % 256]

/-- Scenario 2 of the spec: `FlexibleStruct<Header{count:u16}, u32>`
with header `{count: 0}` (bytes `[0, 0]` either endianness), after
pushing `0xAABBCCDD` then `0x11223344`. -/
def scenario2 : FlexibleStruct 2 4 :=
  ((FlexibleStruct.with_body_capacity 2 4 [0, 0] 0).push
      (u32NativeBytesLE 0xAABBCCDD)).push (u32NativeBytesLE 0x11223344)

/-- C9 (counterexample): `as_bytes()[2..6]` holds the element's native
little-endian bytes `[DD, CC, BB, AA]`, not the big-endian
`[AA, BB, CC, DD]` the claim states. -/
theorem scenario2_counterexample :
    (scenario2.as_bytes.drop 2).take 4 = [0xDD, 0xCC, 0xBB, 0xAA] ∧
    (scenario2.as_bytes.drop 2).take 4 ≠ [0xAA, 0xBB, 0xCC, 0xDD] :=
  ⟨by rfl, by decide⟩

/-- C9 (amended): the scenario-2 struct has `total_size() == 10` and
`as_bytes()[2..6]` equal to the native (little-endian) byte
representation of the first pushed element `0xAABBCCDD`. -/
theorem scenario2_layout :
    scenario2.total_size = 10 ∧
    (scenario2.as_bytes.drop 2).take 4 = u32NativeBytesLE 0xAABBCCDD :=
  ⟨by rfl, by rfl⟩

/-! ## Result classification and transport dispatch (`src/scsi.rs`) -/

/-- Modelled from the spec: `result_data.rs` is not among the provided
sources.  The fields are those `Scsi::issue` assembles into the
`ResultData` literal (src/scsi.rs lines 109-119): platform call return
code, transferred byte count, payload buffer, written sense length,
parsed diagnostic record (`None` when absent), and device status.  The
payload is a byte buffer; the parsed diagnostic record is opaque
bytes. -/
structure ResultData where
  ioctl_result : Int
  transfered_data_length : Nat
  data : List Nat
  transfered_sense_length : Nat
  sense_buffer : Option (List Nat)
  status : Nat
  deriving DecidableEq, Repr

/-- SCSI GOOD status code. -/
def GOOD_STATUS : Nat := 0

/-- Modelled from the spec: transport-level check (taxonomy check 1) —
fail, wrapping the platform's error, exactly when the platform call
itself failed (non-zero return), independent of what the device
reported. -/
def ResultData.check_ioctl_error (r : ResultData) : Except ScsiError Unit :=
  if r.ioctl_result ≠ 0 then Except.error (ScsiError.ioctlFailed r.ioctl_result)
  else Except.ok ()

/-- Modelled from the spec: device-level check (taxonomy check 2) —
fail with a device error carrying the device status code and the
parsed diagnostic record (when present) exactly when the device
reported non-success (bad SCSI status, non-empty diagnostic data). -/
def ResultData.check_common_error (r : ResultData) : Except ScsiError Unit :=
  if r.status ≠ GOOD_STATUS ∨ r.sense_buffer ≠ none then
    Except.error (ScsiError.deviceError r.status r.sense_buffer)
  else Except.ok ()

/-- `ThisCommand::process_result` as every command decoder implements
it (src/command/read.rs lines 393-398, src/command/test_unit_ready.rs
lines 76-81): `check_ioctl_error()?`, then `check_common_error()?`,
then decode the payload (READ returns the payload buffer). -/
def process_result (r : ResultData) : Except ScsiError (List Nat) :=
  match r.check_ioctl_error with
  | Except.error e => Except.error e
  | Except.ok _ =>
  match r.check_common_error with
  | Except.error e => Except.error e
  | Except.ok _ => Except.ok r.data

/-- C1: the transport check runs first — a failed platform call yields
a transport error and a device error is never reported; a successful
call with non-good status and diagnostic data present always yields a
device error carrying that diagnostic data; only when both checks pass
does the decoder see the payload. -/
theorem two_tier_error_ordering (r : ResultData) :
    (r.ioctl_result ≠ 0 →
      process_result r = Except.error (ScsiError.ioctlFailed r.ioctl_result) ∧
      ∀ st sb, process_result r ≠ Except.error (ScsiError.deviceError st sb)) ∧
    (r.ioctl_result = 0 → r.status ≠ GOOD_STATUS →
      ∀ d, r.sense_buffer = some d →
      process_result r = Except.error (ScsiError.deviceError r.status (some d))) ∧
    (r.ioctl_result = 0 → r.status = GOOD_STATUS → r.sense_buffer = none →
      process_result r = Except.ok r.data) := by
  refine ⟨?_, ?_, ?_⟩
  · intro hfail
    have h1 : r.check_ioctl_error =
        Except.error (ScsiError.ioctlFailed r.ioctl_result) := by
      unfold ResultData.check_ioctl_error
      rw [if_pos hfail]
    constructor
    · unfold process_result
      rw [h1]
    · intro st sb
      unfold process_result
      rw [h1]
      simp
  · intro hok hst d hd
    have h1 : r.check_ioctl_error = Except.ok () := by
      unfold ResultData.check_ioctl_error
      rw [if_neg (by simp [hok])]
    have h2 : r.check_common_error =
        Except.error (ScsiError.deviceError r.status r.sense_buffer) := by
      unfold ResultData.check_common_error
      rw [if_pos (Or.inl hst)]
    unfold process_result
    rw [h1, h2, hd]
  · intro hok hst hsb
    have h1 : r.check_ioctl_error = Except.ok () := by
      unfold ResultData.check_ioctl_error
      rw [if_neg (by simp [hok])]
    have h2 : r.check_common_error = Except.ok () := by
      unfold ResultData.check_common_error
      rw [if_neg (by simp [hst, hsb])]
    unfold process_result
    rw [h1, h2]

/-- Witness for `two_tier_error_ordering`: a failed platform call, a
check-condition with sense data, and a clean result, each at concrete
envelopes. -/
theorem two_tier_error_ordering_witness :
    process_result ⟨-1, 0, [], 0, none, 0⟩ =
      Except.error (ScsiError.ioctlFailed (-1)) ∧
    process_result ⟨0, 0, [], 8, some [0x70], 2⟩ =
      Except.error (ScsiError.deviceError 2 (some [0x70])) ∧
    process_result ⟨0, 4, [1, 2, 3, 4], 0, none, 0⟩ = Except.ok [1, 2, 3, 4] :=
  ⟨((two_tier_error_ordering ⟨-1, 0, [], 0, none, 0⟩).1 (by decide)).1,
   (two_tier_error_ordering ⟨0, 0, [], 8, some [0x70], 2⟩).2.1 rfl
     (by decide) [0x70] rfl,
   (two_tier_error_ordering ⟨0, 4, [1, 2, 3, 4], 0, none, 0⟩).2.2 rfl rfl rfl⟩

/-- The `sg_io_hdr` fields the Linux `Scsi::issue` populates that
concern payload transfer and timeout (src/scsi.rs lines 59-93). -/
structure SgIoHeaderModel where
  data_length : Nat
  data : Option Nat
  timeout : Nat
  deriving DecidableEq, Repr

/-- Linux header population: the payload pointer is `None` exactly when
`data_size() == 0`, the timeout is the millisecond count clamped into
`u32`. -/
def linux_issue_header (data_size : Nat) (data_buffer_addr : Nat)
    (timeout_millis : Nat) : SgIoHeaderModel :=
  { data_length := data_size
    data := if data_size = 0 then none else some data_buffer_addr
    timeout := min timeout_millis (2 ^ 32 - 1) }

/-- The `SCSI_PASS_THROUGH_DIRECT` fields the Windows `Scsi::issue`
populates that concern payload transfer and timeout (src/scsi.rs lines
161-191). -/
structure SptModel where
  DataTransferLength : Nat
  DataBuffer : Nat
  TimeOutValue : Nat
  deriving DecidableEq, Repr

/-- Windows header population: `DataBuffer` is assigned the payload
buffer's address unconditionally (src/scsi.rs line 186); the timeout is
whole seconds clamped into `u32` with a minimum of 1. -/
def windows_issue_header (data_size : Nat) (data_buffer_addr : Nat)
    (timeout_secs : Nat) : SptModel :=
  { DataTransferLength := data_size
    DataBuffer := data_buffer_addr
    TimeOutValue := match min timeout_secs (2 ^ 32 - 1) with
                    | 0 => 1
                    | n + 1 => n + 1 }

/-- C2 (counterexample): with `data_size() == 0` the Linux variant
leaves the data pointer `None`, but the Windows variant does place the
payload buffer's address (here 42) into `DataBuffer`. -/
theorem zero_size_data_pointer_counterexample :
    (linux_issue_header 0 42 60000).data = none ∧
    (windows_issue_header 0 42 60).DataBuffer = 42 :=
  ⟨by rfl, by rfl⟩

/-- C2 (amended): on Linux the header's data pointer is `None` iff
`data_size() == 0` (the buffer address otherwise); on Windows
`DataBuffer` is unconditionally set to the payload buffer's address,
including when `data_size() == 0` (only `DataTransferLength` is 0
then). -/
theorem zero_size_data_pointer (data_size addr t_ms t_s : Nat) :
    (data_size = 0 → (linux_issue_header data_size addr t_ms).data = none) ∧
    (data_size ≠ 0 →
      (linux_issue_header data_size addr t_ms).data = some addr) ∧
    (windows_issue_header data_size addr t_s).DataBuffer = addr ∧
    (windows_issue_header data_size addr t_s).DataTransferLength = data_size := by
  refine ⟨?_, ?_, rfl, rfl⟩
  · intro h
    simp [linux_issue_header, h]
  · intro h
    simp [linux_issue_header, h]

/-- Witness for `zero_size_data_pointer` at `data_size = 0` and
`data_size = 512`. -/
theorem zero_size_data_pointer_witness :
    (linux_issue_header 0 7 60000).data = none ∧
    (linux_issue_header 512 7 60000).data = some 7 ∧
    (windows_issue_header 0 7 60).DataBuffer = 7 :=
  ⟨(zero_size_data_pointer 0 7 60000 60).1 rfl,
   (zero_size_data_pointer 512 7 60000 60).2.1 (by decide),
   (zero_size_data_pointer 0 7 60000 60).2.2.1⟩

end Scsir
